import Mathlib

/-!
Verification of the live-preview compiler, CDN injection, message protocol,
log store and REPL controller of the CodeSplit editor
(src/components/MainContent/MainContent.tsx and the CDN toggle logic of
src/pages/Settings.tsx).  Strings are modelled as `List Char`; the
JavaScript `String.prototype.replace(searchString, replacement)` call used
by the compiler is modelled faithfully, including its `$`-substitution
rules (`$$`, `$&`, dollar-backtick, dollar-quote) and its
first-occurrence-only semantics.
-/

set_option maxRecDepth 20000

namespace CodeSplit

/-- The dollar-substitution step of JavaScript GetSubstitution for a string
search pattern: in the replacement string, the two-character sequences
dollar-dollar, dollar-ampersand, dollar-backtick and dollar-quote expand to
a literal dollar, the matched string, the text before the match and the
text after the match respectively; anything else is copied verbatim
(with no capture groups, numbered references stay literal). -/
def getSubst (m before after : List Char) : List Char → List Char
  | [] => []
  | [c] => [c]
  | c :: d :: rest =>
    if c = '$' then
      if d = '$' then '$' :: getSubst m before after rest
      else if d = '&' then m ++ getSubst m before after rest
      else if d = Char.ofNat 96 then before ++ getSubst m before after rest
      else if d = Char.ofNat 39 then after ++ getSubst m before after rest
      else c :: getSubst m before after (d :: rest)
    else c :: getSubst m before after (d :: rest)

/-- Worker for `replaceFirst`: scans `s` left to right, keeping the already
scanned text (reversed) in `before`; at the first position where `pat`
matches it emits the substituted replacement followed by the rest of the
string, exactly as JavaScript `replace` with a string pattern does. -/
def rfGo (pat r : List Char) : List Char → List Char → List Char
  | before, [] =>
    if pat.isPrefixOf ([] : List Char) then
      getSubst pat before.reverse [] r
    else []
  | before, c :: rest =>
    if pat.isPrefixOf (c :: rest) then
      getSubst pat before.reverse (List.drop pat.length (c :: rest)) r
        ++ List.drop pat.length (c :: rest)
    else c :: rfGo pat r (c :: before) rest

/-- JavaScript `s.replace(pat, r)` for a plain-string `pat`: replaces the
first occurrence only, applying dollar-substitution to `r`; returns `s`
unchanged when `pat` does not occur. -/
def replaceFirst (pat r s : List Char) : List Char :=
  rfGo pat r [] s

/-- Number of positions of `s` at which `pat` matches (occurrences may
overlap; a non-empty `pat` never matches at the end position). -/
def countOcc (pat : List Char) : List Char → Nat
  | [] => 0
  | c :: rest =>
    (if pat.isPrefixOf (c :: rest) then 1 else 0) + countOcc pat rest

/-- `true` iff `pat` matches at some position of `s`. -/
def occursIn (pat : List Char) : List Char → Bool
  | [] => pat.isEmpty
  | c :: rest => pat.isPrefixOf (c :: rest) || occursIn pat rest

/-- `true` iff `pat` matches at none of the first `n` positions of `s`. -/
def noMatchWithin (pat : List Char) : List Char → Nat → Bool
  | _, 0 => true
  | s, n + 1 => !(pat.isPrefixOf s) && noMatchWithin pat s.tail n

/-- `true` iff the string contains no dollar character, so that
dollar-substitution leaves it unchanged. -/
def dollarFree (s : List Char) : Bool :=
  s.all (fun c => c ≠ '$')

/-- One editable source file, as held in the editor state of
`MainContent.tsx` (`interface FileState`). -/
structure FileState where
  id : String
  name : String
  language : String
  content : List Char
deriving DecidableEq

/-- The console-interception / REPL instrumentation script of
`MainContent.tsx` (`const consoleScript`), transcribed byte for byte from
the template literal (lines 209-256). -/
def consoleScript : List Char :=
  ("\n    <script>\n      (function() \x7b\n        // Intercept console methods\n        ['log', 'warn', 'error', 'info'].forEach(method => \x7b\n          const original = console[method];\n          console[method] = function(...args) \x7b\n            window.parent.postMessage(\x7b\n              type: 'console',\n              level: method,\n              messages: args,\n              timestamp: Date.now()\n            \x7d, '*');\n            original.apply(console, args);\n          \x7d;\n        \x7d);\n        \n        // Handle runtime errors\n        window.addEventListener('error', function(event) \x7b\n          console.error(event.message);\n        \x7d);\n        \n        // REPL: Listen for execute messages from parent\n        window.addEventListener('message', function(event) \x7b\n          if (event.data && event.data.type === 'execute') \x7b\n            try \x7b\n              const result = eval(event.data.code);\n              window.parent.postMessage(\x7b\n                type: 'result',\n                result: result,\n                error: null,\n                id: event.data.id,\n                timestamp: Date.now()\n              \x7d, '*');\n            \x7d catch (err) \x7b\n              window.parent.postMessage(\x7b\n                type: 'result',\n                result: null,\n                error: err.message || String(err),\n                id: event.data.id,\n                timestamp: Date.now()\n              \x7d, '*');\n            \x7d\n          \x7d\n        \x7d);\n      \x7d)();\n    </script>\n  ").data

/-- The fallback document returned by the compiler when no markup file is
present (`MainContent.tsx` line 265). -/
def missingMarkupDoc : List Char :=
  "<html><body><h1>Error: index.html not found</h1></body></html>".data

def headMarker : List Char := "</head>".data
def bodyMarker : List Char := "</body>".data
def newlineL : List Char := "\n".data
def styleOpen : List Char := "<style>".data
def styleClose : List Char := "</style>".data
def scriptOpen : List Char := "<script>".data
def scriptClose : List Char := "</script>".data

/-- The `<style>` block built for a present style file
(`MainContent.tsx` line 269). -/
def cssBlock (css : List Char) : List Char :=
  styleOpen ++ css ++ styleClose

/-- The `<script>` block built for a present script file
(`MainContent.tsx` line 270). -/
def jsBlock (js : List Char) : List Char :=
  scriptOpen ++ js ++ scriptClose

/-- The compiler (`compiledDoc` memo of `MainContent.tsx`, lines 259-281):
looks up the three named files; without a markup file it returns the fixed
error page; otherwise it replaces the first `</head>` by the CDN tags, a
newline, the style block (when a style file is present), the
instrumentation script and `</head>`, then replaces the first `</body>` of
the result by the script block (when a script file is present) and
`</body>`. -/
def compiledDoc (files : List FileState) (cdnTags : List Char) : List Char :=
  match files.find? (fun f => f.name = "index.html") with
  | none => missingMarkupDoc
  | some htmlFile =>
    let cssFile := files.find? (fun f => f.name = "styles.css")
    let jsFile := files.find? (fun f => f.name = "script.js")
    let cssContent := match cssFile with
      | some c => cssBlock c.content
      | none => []
    let jsContent := match jsFile with
      | some j => jsBlock j.content
      | none => []
    let finalHtml := replaceFirst headMarker
      (cdnTags ++ newlineL ++ cssContent ++ consoleScript ++ headMarker)
      htmlFile.content
    replaceFirst bodyMarker (jsContent ++ bodyMarker) finalHtml

/-- The full head-injection fragment the compiler substitutes for
`</head>`: CDN tags, newline, style block, instrumentation script, and the
marker itself. -/
def headReplacement (cdn css : List Char) : List Char :=
  cdn ++ newlineL ++ cssBlock css ++ consoleScript ++ headMarker

/-- The three source files of Scenario A of the specification: plain
markup skeleton, `body\x7bcolor:red\x7d` style, `console.log('hi')` script,
no CDN libraries enabled. -/
def scenarioAFiles : List FileState :=
  [⟨"index.html", "index.html", "html",
      "<html><head></head><body></body></html>".data⟩,
   ⟨"styles.css", "styles.css", "css", "body\x7bcolor:red\x7d".data⟩,
   ⟨"script.js", "script.js", "javascript", "console.log('hi')".data⟩]

/-! ### CDN configuration (`CdnSettings` of SettingsModal, used by
`cdnTags` in `MainContent.tsx` lines 201-206 and toggled in
`Settings.tsx` line 106). -/

/-- The four CDN library identifiers of `CdnSettings`. -/
inductive CdnLibId where
  | bootstrap | tailwind | fontawesome | jquery
deriving DecidableEq

/-- `CdnSettings`: one enabled-flag per library
(`MainContent.tsx` lines 112-117). -/
structure CdnSettings where
  bootstrap : Bool
  tailwind : Bool
  fontawesome : Bool
  jquery : Bool
deriving DecidableEq

/-- The lookup `cdnSettings[lib.id]`. -/
def getCdnSetting (s : CdnSettings) : CdnLibId → Bool
  | .bootstrap => s.bootstrap
  | .tailwind => s.tailwind
  | .fontawesome => s.fontawesome
  | .jquery => s.jquery

/-- The toggle of `Settings.tsx` line 106:
`\x7b...cdnSettings, [id]: !cdnSettings[id]\x7d`. -/
def toggleCdnSetting (s : CdnSettings) : CdnLibId → CdnSettings
  | .bootstrap => { s with bootstrap := !s.bootstrap }
  | .tailwind => { s with tailwind := !s.tailwind }
  | .fontawesome => { s with fontawesome := !s.fontawesome }
  | .jquery => { s with jquery := !s.jquery }

/-- One entry of the `CDN_LIBRARIES` configuration list (the list itself
lives in SettingsModal, outside the provided sources; the compilation
pipeline only relies on each entry having an id and an ordered sequence of
tag snippets). -/
structure CdnLibrary where
  id : CdnLibId
  tags : List (List Char)

/-- `cdnTags` of `MainContent.tsx` lines 201-206:
`CDN_LIBRARIES.filter((lib) => cdnSettings[lib.id]).flatMap((lib) =>
lib.tags).join("\n")`, parametrised by the configuration list. -/
def cdnTagsOf (libs : List CdnLibrary) (s : CdnSettings) : List Char :=
  List.intercalate newlineL
    ((libs.filter (fun lib => getCdnSetting s lib.id)).flatMap
      (fun lib => lib.tags))

/-! ### JavaScript values, log entries and the message protocol. -/

/-- A shallow model of the JSON-serializable JavaScript values crossing
the bridge.  Numbers are modelled as integers; an `obj` value carries the
text `JSON.stringify(v, null, 2)` would produce for it, since the host
only ever uses an object through that rendering. -/
inductive JsValue where
  | undef
  | jnull
  | bool (b : Bool)
  | num (n : Int)
  | str (s : List Char)
  | obj (json : List Char)
deriving DecidableEq

/-- JavaScript truthiness of a value, as tested by
`if (event.data.error)` in `MainContent.tsx` line 298. -/
def truthy : JsValue → Bool
  | .undef => false
  | .jnull => false
  | .bool b => b
  | .num n => n ≠ 0
  | .str s => s ≠ []
  | .obj _ => true

/-- The display formatting of a REPL result
(`MainContent.tsx` lines 310-317): `undefined` and `null` are spelled out,
objects are JSON-stringified, everything else goes through `String(v)`. -/
def displayValue : JsValue → List Char
  | .undef => "undefined".data
  | .jnull => "null".data
  | .obj json => json
  | .str s => s
  | .num n => (toString n).data
  | .bool b => (if b then "true" else "false").data

/-- `LogEntry` of `ConsoleDrawer.tsx`; the level is kept as a string
because the host casts the received level with `as LogLevel` unchecked. -/
structure LogEntry where
  id : String
  level : String
  messages : List JsValue
  timestamp : Nat
deriving DecidableEq

/-- A message arriving at the host's `message` listener: the two
recognised shapes (`console`, `result`) and anything else. -/
inductive BridgeMsg where
  | console (level : String) (messages : List JsValue) (timestamp : Nat)
  | result (result : JsValue) (error : JsValue) (id : String)
      (timestamp : Nat)
  | other
deriving DecidableEq

/-- The host's receive handler (`handleMessage` of `MainContent.tsx`
lines 284-333).  `newId` stands for the `Math.random()`-derived entry id
minted at append time.  A `console` message is appended as-is; a `result`
message is classified by the truthiness of its `error` field — the
message's `id` field is never inspected; any other message is ignored. -/
def handleMessage (logs : List LogEntry) (m : BridgeMsg) (newId : String) :
    List LogEntry :=
  match m with
  | .console level messages timestamp =>
    logs ++ [⟨newId, level, messages, timestamp⟩]
  | .result result error _ timestamp =>
    if truthy error then
      logs ++ [⟨newId, "error", [error], timestamp⟩]
    else
      logs ++ [⟨newId, "result", [.str (displayValue result)], timestamp⟩]
  | .other => logs

/-- The message sent to the iframe by the REPL controller
(`MainContent.tsx` lines 350-357). -/
structure ExecuteMsg where
  code : List Char
  id : String
deriving DecidableEq

/-- `handleExecuteCode` of `MainContent.tsx` lines 336-359: appends a
`command`-kind entry carrying the code and, when the iframe is available,
sends an `execute` message with a freshly minted id.  `entryId`, `msgId`
and `now` stand for the two `Math.random()`-derived ids and `Date.now()`. -/
def handleExecuteCode (logs : List LogEntry) (code : List Char)
    (entryId msgId : String) (now : Nat) (iframeAvailable : Bool) :
    List LogEntry × Option ExecuteMsg :=
  (logs ++ [⟨entryId, "command", [.str code], now⟩],
   if iframeAvailable then some ⟨code, msgId⟩ else none)

/-- `handleClearLogs` of `MainContent.tsx` line 380: `setLogs([])`. -/
def handleClearLogs (_logs : List LogEntry) : List LogEntry := []

/-! ### The instrumentation script's evaluation service
(the `message` listener inside `consoleScript`, lines 231-253). -/

/-- A message arriving inside the iframe: an `execute` request or anything
else. -/
inductive RuntimeMsg where
  | execute (code : List Char) (id : String)
  | other
deriving DecidableEq

/-- The `result` message posted back by the instrumentation script. -/
structure ResultMsg where
  result : JsValue
  error : JsValue
  id : String
  timestamp : Nat
deriving DecidableEq

/-- The instrumentation script's `message` listener: for an `execute`
message it evaluates the carried code and posts exactly one `result`
message tagged with the request's id — the evaluated value with a `null`
error on success, a `null` result with the error string on a throw; other
messages are ignored.  Evaluation of arbitrary JavaScript (`eval`) is
abstracted as the oracle `ev`, returning either a value or the string
`err.message || String(err)` of the thrown exception. -/
def handleRuntimeMsg (ev : List Char → Except (List Char) JsValue)
    (now : Nat) : RuntimeMsg → Option ResultMsg
  | .execute code id =>
    some (match ev code with
      | .ok v => ⟨v, .jnull, id, now⟩
      | .error e => ⟨.jnull, .str e, id, now⟩)
  | .other => none

/-- Serving a whole sequence of timestamped inbound messages, each request
handled independently of the others. -/
def serveRequests (ev : List Char → Except (List Char) JsValue)
    (msgs : List (RuntimeMsg × Nat)) : List ResultMsg :=
  msgs.filterMap (fun p => handleRuntimeMsg ev p.2 p.1)

/-! ### Debounce (spec §4.2).  Modelled from the spec: the `useDebounce`
hook itself is not among the provided sources — only its two call sites
(`MainContent.tsx` lines 179 and 198, with delays 1500 and 500 ms).
An event stream is a list of (time, value) pairs in time order; an event
is forwarded, `T` later, exactly when no further event arrives within `T`
of it. -/
def debounceEmits {α : Type} (T : Nat) : List (Nat × α) → List (Nat × α)
  | [] => []
  | [(t, v)] => [(t + T, v)]
  | (t, v) :: (t', v') :: rest =>
    (if t + T ≤ t' then [(t + T, v)] else [])
      ++ debounceEmits T ((t', v') :: rest)

/-! ### Concrete inputs used by counterexamples and witnesses. -/

/-- A source set whose style file contains a literal `</body>`: after head
injection, this stray marker precedes the markup's real closing body
marker. -/
def strayBodyFiles : List FileState :=
  [⟨"index.html", "index.html", "html",
      "<html><head></head><body></body></html>".data⟩,
   ⟨"styles.css", "styles.css", "css", "</body>".data⟩,
   ⟨"script.js", "script.js", "javascript", "x".data⟩]

/-- A source set whose markup has no closing head or body marker. -/
def noMarkerFiles : List FileState :=
  [⟨"index.html", "index.html", "html", "<p>hi</p>".data⟩,
   ⟨"styles.css", "styles.css", "css", "x".data⟩,
   ⟨"script.js", "script.js", "javascript", "y".data⟩]

/-- A second marker-less source set, used as witness input. -/
def noMarkerFiles2 : List FileState :=
  [⟨"index.html", "index.html", "html", "<div></div>".data⟩,
   ⟨"styles.css", "styles.css", "css", "p\x7bmargin:0\x7d".data⟩,
   ⟨"script.js", "script.js", "javascript", "let a = 1".data⟩]

/-- A concrete evaluation oracle for witnesses: knows `1+1`, throws `x`
on everything else. -/
def evDemo : List Char → Except (List Char) JsValue :=
  fun code =>
    if code = "1+1".data then .ok (.num 2) else .error "x".data

/-- Concrete CDN libraries A and B for the ordering witness. -/
def libA : CdnLibrary := ⟨.bootstrap, ["<a1>".data, "<a2>".data]⟩

def libB : CdnLibrary := ⟨.jquery, ["<b1>".data]⟩

/-- Settings enabling exactly `libA` and `libB`. -/
def settingsAB : CdnSettings := ⟨true, false, false, true⟩

/-! ### Lemmas about the replace machinery and the compiler. -/

/-- Dollar-substitution leaves a dollar-free replacement string unchanged. -/
theorem getSubst_dollarFree (m b a : List Char) :
    ∀ r : List Char, dollarFree r = true → getSubst m b a r = r := by
  intro r
  induction r with
  | nil => intro _; rfl
  | cons c rest ih =>
    intro h
    have hc' : ¬ (c = '$') :=
      of_decide_eq_true ((List.all_eq_true.mp h) c (List.mem_cons_self c rest))
    have hrest : dollarFree rest = true := by
      refine List.all_eq_true.mpr ?_
      intro x hx
      exact (List.all_eq_true.mp h) x (List.mem_cons_of_mem c hx)
    cases rest with
    | nil => rfl
    | cons d rest' =>
      simp only [getSubst, if_neg hc']
      rw [ih hrest]

/-- When the pattern matches at the current position, the scan emits the
substituted replacement and the tail after the match. -/
theorem rfGo_of_isPrefixOf (pat r pre s : List Char)
    (h : pat.isPrefixOf s = true) :
    rfGo pat r pre s
      = getSubst pat pre.reverse (List.drop pat.length s) r
          ++ List.drop pat.length s := by
  cases s with
  | nil =>
    simp only [rfGo, h, if_true, List.drop_nil, List.append_nil]
  | cons c rest =>
    simp only [rfGo, h, if_true]

/-- A string in which the pattern never matches is returned unchanged. -/
theorem rfGo_not_occurs (pat r : List Char) :
    ∀ s pre, occursIn pat s = false → rfGo pat r pre s = s := by
  intro s
  induction s with
  | nil =>
    intro pre h
    simp only [occursIn] at h
    have : pat.isPrefixOf ([] : List Char) = false := by
      cases pat with
      | nil => simp [List.isEmpty] at h
      | cons a l => rfl
    simp [rfGo, this]
  | cons c rest ih =>
    intro pre h
    simp only [occursIn, Bool.or_eq_false_iff] at h
    simp only [rfGo, h.1, Bool.false_eq_true, if_false]
    rw [ih (c :: pre) h.2]

/-- `replaceFirst` on a string without any occurrence of the pattern is the
identity. -/
theorem replaceFirst_not_occurs (pat r s : List Char)
    (h : occursIn pat s = false) : replaceFirst pat r s = s :=
  rfGo_not_occurs pat r s [] h

theorem drop_succ_eq_drop_tail (i : Nat) :
    ∀ s : List Char, List.drop (i + 1) s = List.drop i s.tail := by
  intro s
  cases s with
  | nil => simp
  | cons c rest => simp

theorem noMatchWithin_spec {pat : List Char} :
    ∀ {n : Nat} {s : List Char}, noMatchWithin pat s n = true →
      ∀ i, i < n → pat.isPrefixOf (List.drop i s) = false := by
  intro n
  induction n with
  | zero => intro s _ i hi; omega
  | succ m ih =>
    intro s h i hi
    simp only [noMatchWithin, Bool.and_eq_true, Bool.not_eq_true'] at h
    cases i with
    | zero => simpa using h.1
    | succ j =>
      rw [drop_succ_eq_drop_tail]
      exact ih h.2 j (Nat.lt_of_succ_lt_succ hi)

/-- Splitting lemma for the scan: if the pattern matches at no position
strictly inside `A`, scanning `A ++ pat ++ B` replaces exactly the shown
occurrence of `pat`. -/
theorem rfGo_split (pat r B : List Char) :
    ∀ (A pre : List Char),
      (∀ i, i < A.length →
        pat.isPrefixOf (List.drop i (A ++ pat ++ B)) = false) →
      rfGo pat r pre (A ++ pat ++ B)
        = A ++ getSubst pat (pre.reverse ++ A) B r ++ B := by
  intro A
  induction A with
  | nil =>
    intro pre _
    have hpre : pat.isPrefixOf (pat ++ B) = true := by
      exact List.isPrefixOf_iff_prefix.mpr (List.prefix_append pat B)
    simp only [List.nil_append]
    rw [rfGo_of_isPrefixOf pat r pre (pat ++ B) hpre]
    simp [List.drop_left]
  | cons a A' ih =>
    intro pre h
    have h0 : pat.isPrefixOf (a :: (A' ++ pat ++ B)) = false := by
      have := h 0 (Nat.succ_pos _)
      simpa using this
    have hstep :
        ∀ i, i < A'.length →
          pat.isPrefixOf (List.drop i (A' ++ pat ++ B)) = false := by
      intro i hi
      have := h (i + 1) (Nat.succ_lt_succ hi)
      simpa using this
    simp only [List.cons_append]
    simp only [rfGo, h0, Bool.false_eq_true, if_false]
    rw [ih (a :: pre) hstep]
    simp [List.append_assoc]

/-- `replaceFirst` on a string of the form `A ++ pat ++ B`, with no match
inside `A`, yields `A ++ substituted-replacement ++ B`. -/
theorem replaceFirst_split (pat r A B : List Char)
    (h : noMatchWithin pat (A ++ pat ++ B) A.length = true) :
    replaceFirst pat r (A ++ pat ++ B) = A ++ getSubst pat A B r ++ B := by
  have := rfGo_split pat r B A [] (noMatchWithin_spec h)
  simpa [replaceFirst] using this

/-- Equation-style version of `replaceFirst_split`, convenient when the
scrutinee is only propositionally of the split shape. -/
theorem replaceFirst_eq_of_split (pat r s A B : List Char)
    (hs : s = A ++ pat ++ B)
    (h : noMatchWithin pat (A ++ pat ++ B) A.length = true) :
    replaceFirst pat r s = A ++ getSubst pat A B r ++ B := by
  rw [hs]
  exact replaceFirst_split pat r A B h

/-- Main insertion lemma for the compiler: when the markup splits around
its first `</head>` and first `</body>`, the style/script files are
present, and neither injected fragment introduces an earlier marker or a
dollar-substitution sequence, the compiled document is exactly the markup
with the head fragment before `</head>` and the script block before
`</body>`. -/
theorem compiledDoc_inserts
    (files : List FileState) (cdn : List Char)
    (htmlF cssF jsF : FileState) (A B C : List Char)
    (hhtml : files.find? (fun f => f.name = "index.html") = some htmlF)
    (hcss : files.find? (fun f => f.name = "styles.css") = some cssF)
    (hjs : files.find? (fun f => f.name = "script.js") = some jsF)
    (hcontent : htmlF.content = A ++ headMarker ++ B ++ bodyMarker ++ C)
    (hd1 : dollarFree (headReplacement cdn cssF.content) = true)
    (hd2 : dollarFree (jsBlock jsF.content ++ bodyMarker) = true)
    (h1 : noMatchWithin headMarker
      (A ++ headMarker ++ B ++ bodyMarker ++ C) A.length = true)
    (h2 : noMatchWithin bodyMarker
      ((A ++ headReplacement cdn cssF.content ++ B) ++ bodyMarker ++ C)
      (A ++ headReplacement cdn cssF.content ++ B).length = true) :
    compiledDoc files cdn
      = A ++ headReplacement cdn cssF.content ++ B
          ++ jsBlock jsF.content ++ bodyMarker ++ C := by
  have s1 : replaceFirst headMarker
      (cdn ++ newlineL ++ cssBlock cssF.content ++ consoleScript ++ headMarker)
      htmlF.content
      = A ++ cdn ++ newlineL ++ cssBlock cssF.content ++ consoleScript
          ++ headMarker ++ B ++ bodyMarker ++ C := by
    rw [replaceFirst_eq_of_split headMarker
      (cdn ++ newlineL ++ cssBlock cssF.content ++ consoleScript ++ headMarker)
      htmlF.content A (B ++ bodyMarker ++ C)
      (by rw [hcontent]; simp [List.append_assoc])
      (by simpa [List.append_assoc] using h1)]
    rw [getSubst_dollarFree headMarker A (B ++ bodyMarker ++ C) _
      (by simpa [headReplacement, List.append_assoc] using hd1)]
    simp [List.append_assoc]
  have s2 : replaceFirst bodyMarker (jsBlock jsF.content ++ bodyMarker)
      (A ++ cdn ++ newlineL ++ cssBlock cssF.content ++ consoleScript
          ++ headMarker ++ B ++ bodyMarker ++ C)
      = A ++ cdn ++ newlineL ++ cssBlock cssF.content ++ consoleScript
          ++ headMarker ++ B ++ jsBlock jsF.content ++ bodyMarker ++ C := by
    rw [replaceFirst_eq_of_split bodyMarker (jsBlock jsF.content ++ bodyMarker)
      _ (A ++ cdn ++ newlineL ++ cssBlock cssF.content ++ consoleScript
          ++ headMarker ++ B) C
      (by simp [List.append_assoc])
      (by simpa [headReplacement, List.append_assoc] using h2)]
    rw [getSubst_dollarFree bodyMarker
      (A ++ cdn ++ newlineL ++ cssBlock cssF.content ++ consoleScript
          ++ headMarker ++ B) C _ hd2]
    simp [List.append_assoc]
  simp only [compiledDoc, hhtml, hcss, hjs]
  rw [s1, s2]
  simp [headReplacement, List.append_assoc]

/-! ### Claim theorems. -/

/-- Claim C1, counterexample: on a source set without a markup file the
compiler does produce a new document — the fixed error page — which is not
the previously compiled document (here: the Scenario A compile), so the
previous preview does not remain in effect and no failure is surfaced. -/
theorem C1_counterexample :
    compiledDoc [] [] = missingMarkupDoc
      ∧ compiledDoc [] [] ≠ compiledDoc scenarioAFiles [] := by
  constructor
  · rfl
  · decide

/-- Claim C1, amended: if the source set contains no markup file, the
compiler does not fail; it returns the fixed error-page document
`<html><body><h1>Error: index.html not found</h1></body></html>`, which
replaces the preview. -/
theorem C1_missing_markup_yields_error_page
    (files : List FileState) (cdn : List Char)
    (h : files.find? (fun f => f.name = "index.html") = none) :
    compiledDoc files cdn = missingMarkupDoc := by
  simp [compiledDoc, h]

/-- Witness for C1: the empty source set has no markup file and compiles
to the error page. -/
theorem C1_witness :
    List.find? (fun f => f.name = "index.html") ([] : List FileState) = none
      ∧ compiledDoc [] [] = missingMarkupDoc :=
  ⟨rfl, C1_missing_markup_yields_error_page [] [] rfl⟩

/-- Claim C3: compilation is deterministic — the compiled document is a
pure function of the source files and the CDN configuration, so equal
inputs give byte-identical outputs. -/
theorem C3_compile_deterministic (libs : List CdnLibrary)
    (files1 files2 : List FileState) (s1 s2 : CdnSettings)
    (hf : files1 = files2) (hs : s1 = s2) :
    compiledDoc files1 (cdnTagsOf libs s1)
      = compiledDoc files2 (cdnTagsOf libs s2) := by
  rw [hf, hs]

/-- Witness for C3 at Scenario A with all CDN libraries disabled. -/
theorem C3_witness :
    compiledDoc scenarioAFiles (cdnTagsOf [] ⟨false, false, false, false⟩)
      = compiledDoc scenarioAFiles (cdnTagsOf [] ⟨false, false, false, false⟩) :=
  C3_compile_deterministic [] scenarioAFiles scenarioAFiles
    ⟨false, false, false, false⟩ ⟨false, false, false, false⟩ rfl rfl

/-- Claim C4: the CDN fragment is the concatenation of exactly the enabled
libraries' tag snippets in configuration order — if the enabled sublist is
`[a, b]` the fragment is `a`'s tags followed by `b`'s tags; a disabled
library contributes nothing wherever it sits in the configuration; and
toggling a library off and on returns the settings to their previous
value, so the fragment (hence the relative order of the still-enabled
libraries) is unchanged. -/
theorem C4_cdn_ordering :
    (∀ (libs : List CdnLibrary) (s : CdnSettings) (a b : CdnLibrary),
      libs.filter (fun lib => getCdnSetting s lib.id) = [a, b] →
      cdnTagsOf libs s = List.intercalate newlineL (a.tags ++ b.tags))
    ∧ (∀ (pre post : List CdnLibrary) (s : CdnSettings) (lib : CdnLibrary),
      getCdnSetting s lib.id = false →
      cdnTagsOf (pre ++ lib :: post) s = cdnTagsOf (pre ++ post) s)
    ∧ (∀ (libs : List CdnLibrary) (s : CdnSettings) (i : CdnLibId),
      cdnTagsOf libs (toggleCdnSetting (toggleCdnSetting s i) i)
        = cdnTagsOf libs s) := by
  refine ⟨?_, ?_, ?_⟩
  · intro libs s a b h
    simp [cdnTagsOf, h]
  · intro pre post s lib h
    simp [cdnTagsOf, List.filter_append, List.filter_cons, h]
  · intro libs s i
    have hii : toggleCdnSetting (toggleCdnSetting s i) i = s := by
      cases i <;> cases s <;> simp [toggleCdnSetting]
    rw [hii]

/-- Witness for C4: libraries A and B enabled in configuration order give
A's tags then B's tags, and a double toggle of A leaves the fragment
unchanged. -/
theorem C4_witness :
    cdnTagsOf [libA, libB] settingsAB
        = List.intercalate newlineL (libA.tags ++ libB.tags)
      ∧ cdnTagsOf [libA, libB]
          (toggleCdnSetting (toggleCdnSetting settingsAB .bootstrap) .bootstrap)
        = cdnTagsOf [libA, libB] settingsAB :=
  ⟨C4_cdn_ordering.1 [libA, libB] settingsAB libA libB rfl,
   C4_cdn_ordering.2.2 [libA, libB] settingsAB .bootstrap⟩

/-- Claim C2, counterexample: the markup of `strayBodyFiles` contains both
closing markers, yet — because its style file contains a literal
`</body>` — the compiled document is not the markup with the head fragment
before `</head>` and the script block before the markup's closing body
marker: the second replacement hits the stray `</body>` inside the
injected style block. -/
theorem C2_counterexample :
    compiledDoc strayBodyFiles []
      ≠ "<html><head>".data ++ headReplacement [] "</body>".data
          ++ "<body>".data ++ jsBlock "x".data
          ++ bodyMarker ++ "</html>".data := by
  decide

/-- Claim C2, amended: for every source set whose markup splits around its
first `</head>` and first `</body>` markers, provided the injected
fragments introduce no earlier occurrence of a marker and no
dollar-substitution sequence, the compiled document equals the markup with
the CDN tags, a newline, the `<style>` block and the instrumentation
script (in that order) inserted immediately before the closing head
marker, and the `<script>` block inserted immediately before the closing
body marker; and on Scenario A the result contains exactly one
instrumentation script block. -/
theorem C2_compile_insertion_amended :
    (∀ (files : List FileState) (cdn : List Char)
        (htmlF cssF jsF : FileState) (A B C : List Char),
      files.find? (fun f => f.name = "index.html") = some htmlF →
      files.find? (fun f => f.name = "styles.css") = some cssF →
      files.find? (fun f => f.name = "script.js") = some jsF →
      htmlF.content = A ++ headMarker ++ B ++ bodyMarker ++ C →
      dollarFree (headReplacement cdn cssF.content) = true →
      dollarFree (jsBlock jsF.content ++ bodyMarker) = true →
      noMatchWithin headMarker
        (A ++ headMarker ++ B ++ bodyMarker ++ C) A.length = true →
      noMatchWithin bodyMarker
        ((A ++ headReplacement cdn cssF.content ++ B) ++ bodyMarker ++ C)
        (A ++ headReplacement cdn cssF.content ++ B).length = true →
      compiledDoc files cdn
        = A ++ headReplacement cdn cssF.content ++ B
            ++ jsBlock jsF.content ++ bodyMarker ++ C)
    ∧ countOcc consoleScript (compiledDoc scenarioAFiles []) = 1 := by
  constructor
  · intro files cdn htmlF cssF jsF A B C hhtml hcss hjs hcontent hd1 hd2 h1 h2
    exact compiledDoc_inserts files cdn htmlF cssF jsF A B C
      hhtml hcss hjs hcontent hd1 hd2 h1 h2
  · decide

/-- Witness for C2 at Scenario A: no CDN libraries, plain skeleton markup,
`body\x7bcolor:red\x7d` style and `console.log('hi')` script. -/
theorem C2_witness :
    compiledDoc scenarioAFiles []
      = "<html><head>".data ++ headReplacement [] "body\x7bcolor:red\x7d".data
          ++ "<body>".data ++ jsBlock "console.log('hi')".data
          ++ bodyMarker ++ "</html>".data :=
  C2_compile_insertion_amended.1 scenarioAFiles []
    ⟨"index.html", "index.html", "html",
      "<html><head></head><body></body></html>".data⟩
    ⟨"styles.css", "styles.css", "css", "body\x7bcolor:red\x7d".data⟩
    ⟨"script.js", "script.js", "javascript", "console.log('hi')".data⟩
    "<html><head>".data "<body>".data "</html>".data
    rfl rfl rfl (by decide) (by decide) (by decide) (by decide) (by decide)

/-- Claim C5, counterexample: the host appends a `result`-kind entry for a
`result` message whose id matches no outstanding request — starting from an
empty log with no request ever issued, the message is still logged, so the
append is not conditional on correlation-id matching. -/
theorem C5_counterexample :
    handleMessage [] (.result .jnull .jnull "never-requested" 7) "e1"
      = [⟨"e1", "result", [.str "null".data], 7⟩] := by
  rfl

/-- Claim C5, amended: the controller appends a `command`-kind entry
carrying the code and (iframe available) sends an `ExecuteRequest` with a
freshly minted id; and it appends a `result`-kind (error field falsy) or
`error`-kind (error field truthy) entry for **every** received
`result`-kind message, regardless of the message's id — no correlation
matching is performed and no correlation state is kept or discarded. -/
theorem C5_repl_controller_amended :
    (∀ (logs : List LogEntry) (code : List Char) (eid mid : String)
        (now : Nat),
      handleExecuteCode logs code eid mid now true
        = (logs ++ [⟨eid, "command", [.str code], now⟩], some ⟨code, mid⟩))
    ∧ (∀ (logs : List LogEntry) (r err : JsValue) (id1 id2 : String)
        (ts : Nat) (nid : String),
      handleMessage logs (.result r err id1 ts) nid
        = handleMessage logs (.result r err id2 ts) nid)
    ∧ (∀ (logs : List LogEntry) (r : JsValue) (i : String) (ts : Nat)
        (nid : String),
      handleMessage logs (.result r .jnull i ts) nid
        = logs ++ [⟨nid, "result", [.str (displayValue r)], ts⟩])
    ∧ (∀ (logs : List LogEntry) (r : JsValue) (e : List Char) (i : String)
        (ts : Nat) (nid : String), e ≠ [] →
      handleMessage logs (.result r (.str e) i ts) nid
        = logs ++ [⟨nid, "error", [.str e], ts⟩]) := by
  refine ⟨fun _ _ _ _ _ => rfl, fun _ _ _ _ _ _ _ => rfl,
    fun _ _ _ _ _ => rfl, ?_⟩
  intro logs r e i ts nid he
  simp [handleMessage, truthy, he]

/-- Witness for C5: a non-empty error string yields an `error`-kind
entry. -/
theorem C5_witness :
    handleMessage [] (.result .jnull (.str "x".data) "r0" 3) "n0"
      = [⟨"n0", "error", [.str "x".data], 3⟩] :=
  C5_repl_controller_amended.2.2.2 [] .jnull "x".data "r0" 3 "n0"
    (by decide)

/-- Claim C6: for each received `execute` message the instrumentation
script sends back exactly one `result` message tagged with the request's
id, carrying the evaluated value with a null error on success or a null
result with the stringified error on a throw; and a throwing evaluation
does not prevent a later unrelated request from being served. -/
theorem C6_instrumentation_replies :
    (∀ (ev : List Char → Except (List Char) JsValue) (now : Nat)
        (code : List Char) (i : String) (v : JsValue),
      ev code = .ok v →
      handleRuntimeMsg ev now (.execute code i) = some ⟨v, .jnull, i, now⟩)
    ∧ (∀ (ev : List Char → Except (List Char) JsValue) (now : Nat)
        (code : List Char) (i : String) (e : List Char),
      ev code = .error e →
      handleRuntimeMsg ev now (.execute code i)
        = some ⟨.jnull, .str e, i, now⟩)
    ∧ (∀ (ev : List Char → Except (List Char) JsValue)
        (l : List (List Char × String × Nat)),
      (serveRequests ev
        (l.map (fun x => (.execute x.1 x.2.1, x.2.2)))).length = l.length)
    ∧ (∀ (ev : List Char → Except (List Char) JsValue)
        (c1 : List Char) (id1 : String) (t1 : Nat)
        (c2 : List Char) (id2 : String) (t2 : Nat)
        (e : List Char) (v : JsValue),
      ev c1 = .error e → ev c2 = .ok v →
      serveRequests ev [(.execute c1 id1, t1), (.execute c2 id2, t2)]
        = [⟨.jnull, .str e, id1, t1⟩, ⟨v, .jnull, id2, t2⟩]) := by
  refine ⟨?_, ?_, ?_, ?_⟩
  · intro ev now code i v h
    simp [handleRuntimeMsg, h]
  · intro ev now code i e h
    simp [handleRuntimeMsg, h]
  · intro ev l
    simp [serveRequests, handleRuntimeMsg]
  · intro ev c1 id1 t1 c2 id2 t2 e v h1 h2
    simp [serveRequests, handleRuntimeMsg, h1, h2]

/-- Witness for C6 with the concrete oracle `evDemo`: the throwing request
`boom` is answered with its error, and the following `1+1` request still
succeeds with value 2. -/
theorem C6_witness :
    handleRuntimeMsg evDemo 5 (.execute "1+1".data "r1")
        = some ⟨.num 2, .jnull, "r1", 5⟩
      ∧ serveRequests evDemo
          [(.execute "boom".data "r2", 1), (.execute "1+1".data "r3", 2)]
        = [⟨.jnull, .str "x".data, "r2", 1⟩, ⟨.num 2, .jnull, "r3", 2⟩] :=
  ⟨C6_instrumentation_replies.1 evDemo 5 "1+1".data "r1" (.num 2) rfl,
   C6_instrumentation_replies.2.2.2 evDemo "boom".data "r2" 1
     "1+1".data "r3" 2 "x".data (.num 2) rfl rfl⟩

/-- Claim C9: clearing the log store yields the empty sequence; an append
right after a clear makes the appended entry the only one; and in general
the receive handler extends the log by exactly one entry at the end,
leaving existing entries untouched (or, for unrecognised messages, leaves
the log unchanged). -/
theorem C9_log_store_clear_append :
    (∀ logs : List LogEntry, handleClearLogs logs = [])
    ∧ (∀ (logs : List LogEntry) (lvl : String) (msgs : List JsValue)
        (ts : Nat) (nid : String),
      handleMessage (handleClearLogs logs) (.console lvl msgs ts) nid
        = [⟨nid, lvl, msgs, ts⟩])
    ∧ (∀ (logs : List LogEntry) (lvl : String) (msgs : List JsValue)
        (ts : Nat) (nid : String),
      handleMessage logs (.console lvl msgs ts) nid
        = logs ++ [⟨nid, lvl, msgs, ts⟩])
    ∧ (∀ (logs : List LogEntry) (m : BridgeMsg) (nid : String),
      handleMessage logs m nid = logs
        ∨ ∃ e, handleMessage logs m nid = logs ++ [e]) := by
  refine ⟨fun _ => rfl, fun _ _ _ _ _ => rfl, fun _ _ _ _ _ => rfl, ?_⟩
  intro logs m nid
  cases m with
  | console lvl msgs ts => exact Or.inr ⟨_, rfl⟩
  | result r err i ts =>
    by_cases h : truthy err = true
    · refine Or.inr ⟨⟨nid, "error", [err], ts⟩, ?_⟩
      simp [handleMessage, h]
    · refine Or.inr ⟨⟨nid, "result", [.str (displayValue r)], ts⟩, ?_⟩
      simp [handleMessage, h]
  | other => exact Or.inl rfl

/-- Claim C10: the host classifies a `result` message by JavaScript
truthiness of its error field, not by comparison with null — an empty
error string is treated as success (the null result formatted as the
string `null`), and an error-kind entry is produced exactly when the error
string is non-empty. -/
theorem C10_error_truthiness :
    (∀ (logs : List LogEntry) (r : JsValue) (i nid : String) (ts : Nat),
      handleMessage logs (.result r (.str []) i ts) nid
        = logs ++ [⟨nid, "result", [.str (displayValue r)], ts⟩])
    ∧ (∀ (logs : List LogEntry) (i nid : String) (ts : Nat),
      handleMessage logs (.result .jnull (.str []) i ts) nid
        = logs ++ [⟨nid, "result", [.str "null".data], ts⟩])
    ∧ (∀ (logs : List LogEntry) (r : JsValue) (e : List Char)
        (i nid : String) (ts : Nat), e ≠ [] →
      handleMessage logs (.result r (.str e) i ts) nid
        = logs ++ [⟨nid, "error", [.str e], ts⟩])
    ∧ (∀ (logs : List LogEntry) (r : JsValue) (e : List Char)
        (i nid : String) (ts : Nat),
      handleMessage logs (.result r (.str e) i ts) nid
        = logs ++ [⟨nid, "error", [.str e], ts⟩] → e ≠ []) := by
  refine ⟨fun _ _ _ _ _ => rfl, fun _ _ _ _ => rfl, ?_, ?_⟩
  · intro logs r e i nid ts he
    simp [handleMessage, truthy, he]
  · intro logs r e i nid ts h he
    subst he
    simp only [handleMessage, truthy] at h
    simp at h

/-- Witness for C10: the empty error string logs a success entry showing
`null`; the error string `x` logs an error entry. -/
theorem C10_witness :
    handleMessage [] (.result .jnull (.str []) "i1" 3) "n1"
        = [⟨"n1", "result", [.str "null".data], 3⟩]
      ∧ handleMessage [] (.result .jnull (.str "x".data) "i2" 4) "n2"
        = [⟨"n2", "error", [.str "x".data], 4⟩] :=
  ⟨C10_error_truthiness.2.1 [] "i1" "n1" 3,
   C10_error_truthiness.2.2.1 [] .jnull "x".data "i2" "n2" 4 (by decide)⟩

/-- Claim C7 (debounce model, spec §4.2): for a non-empty burst of changes
in which each change follows its predecessor in strictly less than `T`,
exactly one downstream emission occurs, `T` after the last change and
carrying the last change's value; and the two delays used in the program
(500 ms for recompilation, 1500 ms for the change notification) are
independent instances of the same mechanism — on the same two edits 600 ms
apart the 500 ms instance emits twice while the 1500 ms instance coalesces
them into one emission. -/
theorem C7_debounce_coalescing :
    (∀ (α : Type) (T : Nat) (evs : List (Nat × α)) (t : Nat) (v : α),
      List.Chain' (fun a b => b.1 < a.1 + T) evs →
      evs.getLast? = some (t, v) →
      debounceEmits T evs = [(t + T, v)])
    ∧ (debounceEmits 500 [(0, 1), (600, 2)] = [(500, 1), (1100, 2)]
      ∧ debounceEmits 1500 [(0, 1), (600, 2)] = [(2100, 2)]) := by
  constructor
  · intro α T evs
    induction evs with
    | nil => intro t v _ hlast; simp at hlast
    | cons hd tl ih =>
      cases tl with
      | nil =>
        intro t v _ hlast
        obtain ⟨t0, v0⟩ := hd
        simp at hlast
        simp [debounceEmits, hlast.1, hlast.2]
      | cons hd2 tl2 =>
        intro t v hchain hlast
        obtain ⟨t0, v0⟩ := hd
        obtain ⟨t1, v1⟩ := hd2
        have hrel := (List.chain'_cons.mp hchain).1
        have htail := (List.chain'_cons.mp hchain).2
        have hcond : ¬ (t0 + T ≤ t1) := by
          simp only [] at hrel
          omega
        have hlast' : ((t1, v1) :: tl2).getLast? = some (t, v) := by
          simpa using hlast
        simp only [debounceEmits, if_neg hcond, List.nil_append]
        exact ih t v htail hlast'
  · exact ⟨by decide, by decide⟩

/-- Witness for C7: three edits 100 ms apart under the 500 ms window give
exactly one emission, 500 ms after the last edit, with the last value. -/
theorem C7_witness :
    debounceEmits 500 [(0, 10), (100, 20), (200, 30)] = [(700, 30)] :=
  C7_debounce_coalescing.1 Nat 500 [(0, 10), (100, 20), (200, 30)] 200 30
    (by
      refine List.chain'_cons.mpr ⟨by decide, ?_⟩
      refine List.chain'_cons.mpr ⟨by decide, ?_⟩
      exact List.chain'_singleton _)
    rfl

/-- Claim C8, counterexample: on markup with no closing head or body
marker, compilation returns the markup unchanged — neither the
instrumentation script, nor the style block, nor the script block appears
anywhere in the output, so the fragments are silently dropped rather than
placed at a fallback position. -/
theorem C8_counterexample :
    compiledDoc noMarkerFiles [] = "<p>hi</p>".data
      ∧ occursIn consoleScript (compiledDoc noMarkerFiles []) = false
      ∧ occursIn (cssBlock "x".data) (compiledDoc noMarkerFiles []) = false
      ∧ occursIn (jsBlock "y".data) (compiledDoc noMarkerFiles []) = false :=
  ⟨rfl, by decide, by decide, by decide⟩

/-- Claim C8, amended: if the markup contains no closing head marker and
no closing body marker, compilation still succeeds deterministically and
returns the markup unchanged — each injection fragment is silently
dropped (the replacement is a no-op), not placed at a fallback
position. -/
theorem C8_missing_markers_amended
    (files : List FileState) (cdn : List Char) (htmlF : FileState)
    (hhtml : files.find? (fun f => f.name = "index.html") = some htmlF)
    (hnohead : occursIn headMarker htmlF.content = false)
    (hnobody : occursIn bodyMarker htmlF.content = false) :
    compiledDoc files cdn = htmlF.content := by
  simp only [compiledDoc, hhtml]
  rw [replaceFirst_not_occurs headMarker _ htmlF.content hnohead,
    replaceFirst_not_occurs bodyMarker _ htmlF.content hnobody]

/-- Witness for C8 on a second marker-less source set. -/
theorem C8_witness :
    compiledDoc noMarkerFiles2 [] = "<div></div>".data :=
  C8_missing_markers_amended noMarkerFiles2 []
    ⟨"index.html", "index.html", "html", "<div></div>".data⟩
    rfl (by decide) (by decide)

end CodeSplit
